import Mathlib

/-!
Verification of the chat session engine of `components/chatbot_core.py`
(the repository's declared source-of-truth chatbot module), together with
the server-sent-event consumption loop of `components/chatbot.py`.

The embedding is shallow and executable:
* A chat turn is the dict `{role, content, ts}`.
* `append_message`, `_mock_response` and the body of `get_response_stream`
  are translated function-by-function.
* The wall clock (`datetime.now(...).isoformat()`) is passed in as explicit
  string parameters `now` (user-turn timestamp) and `fin` (finalization
  timestamp); the theorems assume they are non-empty, which is true of every
  ISO-8601 instant.
* The generator of `get_response_stream` is modelled by the pure function
  `runStream`, parameterised by `k`, the number of chunks the consumer pulls
  before abandoning the generator (any `k` at least the total chunk count is
  a full drain).  Python runs the `finally:` block whenever the generator
  body has started, i.e. whenever `1 ≤ k`, so the model applies the
  finalization unconditionally and the theorems carry the `1 ≤ k` guard.
* The one-shot OpenAI call (network I/O) is abstracted as a value of type
  `Except String String`: `.ok reply` for a successful
  `_call_openai_chat` return and `.error e` for a raised exception whose
  string rendering is `e`; the surrounding control flow is translated
  literally.
* Disk persistence (`_save_history_to_disk`) is best-effort and never
  observable through the session state, so it is not modelled.
-/

/-- One chat turn: the dict `{"role": ..., "content": ..., "ts": ...}`
built by `append_message` and by the placeholder append in
`get_response_stream` (chatbot_core.py line 85 / 131). -/
structure Turn where
  role : String
  content : String
  ts : String
deriving DecidableEq, Repr

/-- Number of turns whose timestamp is unset (`ts == ""`), i.e. active
streaming placeholders. -/
def countUnset (h : List Turn) : Nat :=
  (h.filter (fun t => decide (t.ts = ""))).length

/-- Python `str.strip()` on the character list: drop leading and trailing
whitespace. -/
def stripL (l : List Char) : List Char :=
  ((l.dropWhile Char.isWhitespace).reverse.dropWhile Char.isWhitespace).reverse

/-- Python `content.strip()` (chatbot_core.py line 73). -/
def pyStrip (s : String) : String := ⟨stripL s.data⟩

/-- Python `user_text.lower()` (chatbot_core.py line 90). -/
def pyLower (s : String) : String := ⟨s.data.map Char.toLower⟩

/-- Does the first character list start the second one? -/
def startsL : List Char → List Char → Bool
  | [], _ => true
  | _ :: _, [] => false
  | a :: as, b :: bs => a == b && startsL as bs

/-- Does the first character list occur contiguously inside the second? -/
def subL (needle : List Char) : List Char → Bool
  | [] => startsL needle []
  | b :: rest => startsL needle (b :: rest) || subL needle rest

/-- Python substring test `needle in hay`. -/
def containsSub (hay needle : String) : Bool := subL needle.data hay.data

/-- Python `line.startswith(p)`. -/
def pyStartsWith (s p : String) : Bool := startsL p.data s.data

/-- Python slice `s[n:]`. -/
def pyDrop (s : String) (n : Nat) : String := ⟨s.data.drop n⟩

/-- `append_message(st, role, content, timestamp=None)` of
chatbot_core.py lines 70-86: trim the content; drop empty user messages;
drop a message equal (role and content) to the last turn; otherwise append
with the supplied timestamp, defaulting to the current instant `now`. -/
def append_message (hist : List Turn) (role content : String)
    (timestamp : Option String) (now : String) : List Turn :=
  let c := pyStrip content
  if c = "" ∧ role = "user" then hist
  else
    match hist.getLast? with
    | some last =>
      if last.role = role ∧ last.content = c then hist
      else hist ++ [⟨role, c, timestamp.getD now⟩]
    | none => hist ++ [⟨role, c, timestamp.getD now⟩]

/-- `_mock_response` of chatbot_core.py lines 89-99: keyword classifier over
the lowercased input, checked in priority order. -/
def mock_response (user_text : String) : String :=
  let text := pyLower user_text
  if containsSub text "hello" || containsSub text "hi" then
    "Hi there! How can I help you today?"
  else if containsSub text "task" then
    "You can create a new task from the Tasks page."
  else if containsSub text "dashboard" then
    "The dashboard shows metrics and recent tasks. Which metric?"
  else if containsSub text "help" || containsSub text "how" then
    "Ask me about creating, updating, or deleting tasks, or about user accounts."
  else
    "Thanks — I got that. Can you tell me more?"

/-- Fuel-driven worker for `chunks12`; the fuel only forces structural
termination and is irrelevant once it is at least the list length. -/
def chunks12F : Nat → List Char → List (List Char)
  | _, [] => []
  | 0, _ :: _ => []
  | fuel + 1, c :: r => ((c :: r).take 12) :: chunks12F fuel ((c :: r).drop 12)

/-- The loop `for i in range(0, len(full), chunk_size)` with
`chunk_size = 12` (chatbot_core.py lines 149-152): split a character list
into successive slices of 12. -/
def chunks12 (l : List Char) : List (List Char) := chunks12F l.length l

/-- The chunk strings yielded by the local (mock) streaming branch for a
given user text. -/
def localChunks (ut : String) : List String :=
  (chunks12 (mock_response ut).data).map (fun l => String.mk l)

/-- Concatenation of a chunk list, i.e. the `buffer` accumulator of the
streaming loop after those chunks. -/
def joinS : List String → String
  | [] => ""
  | s :: r => s ++ joinS r

/-- Environment of the engine: the `OPENAI_API_KEY` variable
(`none` when unset; Python also treats the empty string as absent because
`if use_openai and api_key and ...` tests truthiness) and whether the
`requests` module imported successfully (chatbot_core.py lines 15-18). -/
structure Env where
  apiKey : Option String
  requestsAvailable : Bool

/-- Truthiness of `api_key` in `use_openai and api_key and requests is not
None` (chatbot_core.py line 137). -/
def keyPresent (env : Env) : Bool :=
  match env.apiKey with
  | none => false
  | some s => decide (s ≠ "")

/-- The guard of chatbot_core.py line 137 selecting the external variant. -/
def extSelected (useOpenai : Bool) (env : Env) : Bool :=
  useOpenai && keyPresent env && env.requestsAvailable

/-- Outcome of the abstracted `_call_openai_chat` network call and the
`try/except` around it (chatbot_core.py lines 138-146): a successful reply
is yielded as is, an exception `e` becomes the single chunk
`"(OpenAI error) " + str(e)`. -/
def extChunk : Except String String → String
  | .ok t => t
  | .error e => "(OpenAI error) " ++ e

/-- The complete chunk sequence the generator would produce if fully
drained: one chunk in the external branch, the 12-character slices of the
mock reply in the local branch (chatbot_core.py lines 136-156). -/
def allChunks (useOpenai : Bool) (env : Env) (ext : Except String String)
    (ut : String) : List String :=
  if extSelected useOpenai env then [extChunk ext] else localChunks ut

/-- Lines 124-126 of chatbot_core.py: append the user turn unless the last
turn is already a user turn with exactly (untrimmed) this content. -/
def step1 (h : List Turn) (ut now : String) : List Turn :=
  match h.getLast? with
  | none => append_message h "user" ut none now
  | some last =>
    if last.role = "user" ∧ last.content = ut then h
    else append_message h "user" ut none now

/-- The assistant placeholder dict `{"role": "assistant", "content": "",
"ts": ""}` of chatbot_core.py line 131. -/
def placeholderTurn : Turn := ⟨"assistant", "", ""⟩

/-- Lines 128-133 of chatbot_core.py: append a fresh placeholder unless the
last turn already is an unfinalized empty assistant placeholder. -/
def step2 (h : List Turn) : List Turn :=
  match h.getLast? with
  | none => h ++ [placeholderTurn]
  | some last =>
    if last.role = "assistant" ∧ last.content = "" ∧ last.ts = "" then h
    else h ++ [placeholderTurn]

/-- History right before the streaming loop starts: user turn appended if
needed, then the placeholder; `assistant_idx` is its last position. -/
def preHist (h0 : List Turn) (ut now : String) : List Turn :=
  step2 (step1 h0 ut now)

/-- Per-session state touched by `get_response_stream`: the
`chat_history` list and the `_is_streaming` flag. -/
structure Sess where
  hist : List Turn
  streaming : Bool
deriving DecidableEq, Repr

/-- The whole generator `get_response_stream(st, user_text, use_openai)`
(chatbot_core.py lines 118-160) as a pure state transformer.  `k` is how
many chunks the consumer pulls before abandoning the generator (any `k` at
least the chunk count is a full drain); the returned list is exactly the
chunks the consumer received.  The `finally:` block (lines 157-160) stamps
the placeholder at `assistant_idx` with the finalization instant `fin` and
clears `_is_streaming`; it runs whenever the generator body has started
(`1 ≤ k`), which the theorems assume.  If `_is_streaming` is already set
the body returns at line 120 with no effect at all. -/
def runStream (s : Sess) (ut : String) (useOpenai : Bool) (env : Env)
    (ext : Except String String) (now fin : String) (k : Nat) :
    Sess × List String :=
  if s.streaming then (s, [])
  else
    let h2 := preHist s.hist ut now
    let cs := allChunks useOpenai env ext ut
    let y := cs.take k
    (⟨h2.set (h2.length - 1) ⟨"assistant", joinS y, fin⟩, false⟩, y)

/-- Every history the caller can observe during one `runStream`: on entry,
after the user append, after the placeholder append, at each chunk yield
(placeholder content = accumulator so far, timestamp still unset), and
after the `finally:` block. -/
def streamSnapshots (s : Sess) (ut : String) (useOpenai : Bool) (env : Env)
    (ext : Except String String) (now fin : String) (k : Nat) :
    List (List Turn) :=
  if s.streaming then [s.hist]
  else
    let h2 := preHist s.hist ut now
    let cs := allChunks useOpenai env ext ut
    [s.hist, step1 s.hist ut now, h2]
      ++ (List.range (min k cs.length)).map
          (fun i => h2.set (h2.length - 1)
            ⟨"assistant", joinS (cs.take (i + 1)), ""⟩)
      ++ [h2.set (h2.length - 1) ⟨"assistant", joinS (cs.take k), fin⟩]

/-- `json.loads(data)` followed by the walk
`for choice in chunk.get("choices", []): choice.get("delta", {}).get("content")`
of chatbot.py lines 170-179, abstracted over the JSON decoder `parse`:
`none` models a parse failure (the `except: continue`), and each element of
the decoded list is one choice's optional `delta.content`.  Falsy contents
(`None` or `""`) are skipped by `if content:`. -/
def eventDeltas (parse : String → Option (List (Option String)))
    (data : String) : List String :=
  match parse data with
  | none => []
  | some choices =>
    choices.filterMap (fun c =>
      match c with
      | some s => if s = "" then none else some s
      | none => none)

/-- Lines 163-166 of chatbot.py: strip a leading `"data: "` marker and
surrounding whitespace from one feed line. -/
def sseLineData (line : String) : String :=
  if pyStartsWith line "data: " then pyStrip (pyDrop line 6) else pyStrip line

/-- The streaming consumption loop of chatbot.py lines 155-179: skip empty
lines, decode each `data:` line, stop at the `"[DONE]"` sentinel, and yield
every non-empty delta of every decoded event in arrival order. -/
def sseDeltas (parse : String → Option (List (Option String))) :
    List String → List String
  | [] => []
  | line :: rest =>
    if line = "" then sseDeltas parse rest
    else if sseLineData line = "[DONE]" then []
    else eventDeltas parse (sseLineData line) ++ sseDeltas parse rest

/-- A two-event JSON decoder used to exercise the SSE loop on concrete
input. -/
def parseW : String → Option (List (Option String)) := fun s =>
  if s = "e1" then some [some "Hel"]
  else if s = "e2" then some [some "lo!"]
  else none

-- sanity examples (concrete evaluation of the embedded code)
example : pyStrip "  hi " = "hi" := by decide
example : mock_response "hello" = "Hi there! How can I help you today?" := by decide
example : localChunks "hello" =
    ["Hi there! Ho", "w can I help", " you today?"] := by decide
example : joinS (localChunks "hello") = mock_response "hello" := by decide
example :
    runStream ⟨[], false⟩ "hello" false ⟨none, true⟩ (.ok "") "T1" "T2" 99 =
      (⟨[⟨"user", "hello", "T1"⟩,
         ⟨"assistant", "Hi there! How can I help you today?", "T2"⟩], false⟩,
       ["Hi there! Ho", "w can I help", " you today?"]) := by decide
example :
    runStream ⟨[⟨"user", "x", "T0"⟩], true⟩ "hello" false ⟨none, true⟩
      (.ok "") "T1" "T2" 99 = (⟨[⟨"user", "x", "T0"⟩], true⟩, []) := by decide
example :
    sseDeltas parseW ["data: e1", "", "data: e2", "data: [DONE]", "data: e1"] =
      ["Hel", "lo!"] := by decide

/-! ### Helper lemmas -/

theorem str_append_assoc (a b c : String) : a ++ b ++ c = a ++ (b ++ c) := by
  apply String.ext
  simp [String.data_append]

theorem joinS_append (l1 l2 : List String) :
    joinS (l1 ++ l2) = joinS l1 ++ joinS l2 := by
  induction l1 with
  | nil =>
    show joinS l2 = "" ++ joinS l2
    cases h : joinS l2
    rfl
  | cons s r ih =>
    show s ++ joinS (r ++ l2) = s ++ joinS r ++ joinS l2
    rw [ih, str_append_assoc]

theorem joinS_map_mk (L : List (List Char)) :
    joinS (L.map (fun l => String.mk l)) = ⟨L.flatten⟩ := by
  induction L with
  | nil => rfl
  | cons a r ih =>
    show String.mk a ++ joinS (r.map (fun l => String.mk l)) = _
    rw [ih]
    apply String.ext
    simp [String.data_append]

theorem countUnset_append (a b : List Turn) :
    countUnset (a ++ b) = countUnset a + countUnset b := by
  simp [countUnset, List.filter_append]

theorem countUnset_single (t : Turn) :
    countUnset [t] = if t.ts = "" then 1 else 0 := by
  by_cases ht : t.ts = "" <;> simp [countUnset, List.filter, ht]

theorem countUnset_pos_of_getLast?_unset (h : List Turn) (last : Turn)
    (hl : h.getLast? = some last) (ht : last.ts = "") : 1 ≤ countUnset h := by
  obtain ⟨h', rfl⟩ := List.getLast?_eq_some_iff.mp hl
  rw [countUnset_append, countUnset_single, if_pos ht]
  omega

theorem setLast (l : List Turn) (a b : Turn) :
    (l ++ [a]).set l.length b = l ++ [b] := by
  induction l with
  | nil => rfl
  | cons x xs ih =>
    simp only [List.cons_append, List.length_cons, List.set_cons_succ, ih]

theorem appendMsg_cases (h : List Turn) (role c : String)
    (ts? : Option String) (now : String) :
    append_message h role c ts? now = h ∨
      append_message h role c ts? now = h ++ [⟨role, pyStrip c, ts?.getD now⟩] := by
  simp only [append_message]
  split
  · exact Or.inl rfl
  · split
    · split
      · exact Or.inl rfl
      · exact Or.inr rfl
    · exact Or.inr rfl

theorem step1_cases (h : List Turn) (ut now : String) :
    step1 h ut now = h ∨
      step1 h ut now = h ++ [⟨"user", pyStrip ut, now⟩] := by
  unfold step1
  have hbase := appendMsg_cases h "user" ut none now
  rw [Option.getD_none] at hbase
  cases hm : h.getLast? with
  | none => exact hbase
  | some last =>
    dsimp only
    split
    · exact Or.inl rfl
    · exact hbase

theorem countUnset_step1 (h : List Turn) (ut now : String) (hn : now ≠ "")
    (hc : countUnset h = 0) : countUnset (step1 h ut now) = 0 := by
  rcases step1_cases h ut now with he | he <;> rw [he]
  · exact hc
  · rw [countUnset_append, hc, countUnset_single]
    simp [hn]

theorem step2_concat (h : List Turn) (hc : countUnset h = 0) :
    step2 h = h ++ [placeholderTurn] := by
  unfold step2
  cases hm : h.getLast? with
  | none => rfl
  | some last =>
    dsimp only
    split
    · next hcond =>
      exfalso
      have := countUnset_pos_of_getLast?_unset h last hm hcond.2.2
      omega
    · rfl

theorem chunks12F_congr :
    ∀ (f1 : Nat), ∀ (f2 : Nat) (l : List Char), l.length ≤ f1 →
      l.length ≤ f2 → chunks12F f1 l = chunks12F f2 l := by
  intro f1
  induction f1 with
  | zero =>
    intro f2 l h1 _
    have : l = [] := List.length_eq_zero.mp (by omega)
    subst this
    cases f2 <;> rfl
  | succ f1 ih =>
    intro f2 l h1 h2
    cases l with
    | nil => cases f2 <;> rfl
    | cons c r =>
      cases f2 with
      | zero => simp at h2
      | succ f2 =>
        show ((c :: r).take 12) :: chunks12F f1 ((c :: r).drop 12) =
          ((c :: r).take 12) :: chunks12F f2 ((c :: r).drop 12)
        congr 1
        apply ih
        · simp only [List.length_drop, List.length_cons] at *
          omega
        · simp only [List.length_drop, List.length_cons] at *
          omega

theorem chunks12_cons (c : Char) (r : List Char) :
    chunks12 (c :: r) = ((c :: r).take 12) :: chunks12 ((c :: r).drop 12) := by
  show ((c :: r).take 12) :: chunks12F r.length ((c :: r).drop 12) = _
  congr 1
  apply chunks12F_congr
  · simp only [List.length_drop, List.length_cons]
    omega
  · rfl

theorem chunks12_flatten : ∀ (l : List Char), (chunks12 l).flatten = l := by
  have key : ∀ (n : Nat) (l : List Char), l.length ≤ n →
      (chunks12 l).flatten = l := by
    intro n
    induction n with
    | zero =>
      intro l h
      have : l = [] := List.length_eq_zero.mp (by omega)
      subst this
      rfl
    | succ n ih =>
      intro l h
      cases l with
      | nil => rfl
      | cons c r =>
        rw [chunks12_cons, List.flatten_cons,
          ih ((c :: r).drop 12) (by simp only [List.length_drop,
            List.length_cons] at *; omega)]
        exact List.take_append_drop 12 (c :: r)
  exact fun l => key l.length l le_rfl

theorem chunks12_eq_nil_iff (l : List Char) : chunks12 l = [] ↔ l = [] := by
  cases l with
  | nil => simp [chunks12, chunks12F]
  | cons c r => simp [chunks12_cons]

theorem chunks12_sizes : ∀ (l : List Char), ∀ c ∈ chunks12 l,
    c ≠ [] ∧ c.length ≤ 12 := by
  have key : ∀ (n : Nat) (l : List Char), l.length ≤ n →
      ∀ c ∈ chunks12 l, c ≠ [] ∧ c.length ≤ 12 := by
    intro n
    induction n with
    | zero =>
      intro l h
      have : l = [] := List.length_eq_zero.mp (by omega)
      subst this
      intro c hc
      simp [chunks12, chunks12F] at hc
    | succ n ih =>
      intro l h c hc
      cases l with
      | nil => simp [chunks12, chunks12F] at hc
      | cons a r =>
        rw [chunks12_cons] at hc
        rcases List.mem_cons.mp hc with rfl | hc
        · constructor
          · show (a :: r).take (11 + 1) ≠ []
            rw [List.take_succ_cons]
            simp
          · simp only [List.length_take]
            omega
        · have h' : r.length + 1 ≤ n + 1 := by simpa using h
          have hlen : ((a :: r).drop 12).length ≤ n := by
            simp only [List.length_drop, List.length_cons]
            omega
          exact ih _ hlen c hc
  exact fun l => key l.length l le_rfl

theorem chunks12_full : ∀ (l : List Char) (i : Nat),
    i + 1 < (chunks12 l).length → ((chunks12 l).getD i []).length = 12 := by
  have key : ∀ (n : Nat) (l : List Char), l.length ≤ n → ∀ (i : Nat),
      i + 1 < (chunks12 l).length → ((chunks12 l).getD i []).length = 12 := by
    intro n
    induction n with
    | zero =>
      intro l h i hi
      have : l = [] := List.length_eq_zero.mp (by omega)
      subst this
      simp [chunks12, chunks12F] at hi
    | succ n ih =>
      intro l h i hi
      cases l with
      | nil => simp [chunks12, chunks12F] at hi
      | cons a r =>
        rw [chunks12_cons] at hi ⊢
        cases i with
        | zero =>
          rw [List.getD_cons_zero]
          simp only [List.length_cons] at hi
          have hrest : chunks12 ((a :: r).drop 12) ≠ [] := by
            intro hnil
            rw [hnil] at hi
            simp at hi
          have hlong : ¬ (a :: r).length ≤ 12 := by
            intro hle
            exact hrest ((chunks12_eq_nil_iff _).mpr
              (List.drop_eq_nil_iff.mpr hle))
          simp only [List.length_take, List.length_cons] at *
          omega
        | succ i =>
          rw [List.getD_cons_succ]
          have h' : r.length + 1 ≤ n + 1 := by simpa using h
          have hlen : ((a :: r).drop 12).length ≤ n := by
            simp only [List.length_drop, List.length_cons]
            omega
          have hi' : i + 1 < (chunks12 ((a :: r).drop 12)).length := by
            simp only [List.length_cons] at hi
            omega
          exact ih _ hlen i hi'
  exact fun l => key l.length l le_rfl

/-- Canonical shape of one non-busy run: the engine appends the user turn
(or not), then exactly one placeholder; the finalizer overwrites that last
slot. -/
theorem runStream_eq (s : Sess) (ut : String) (uo : Bool) (env : Env)
    (ext : Except String String) (now fin : String) (k : Nat)
    (hs : s.streaming = false) (hn : now ≠ "")
    (hc : countUnset s.hist = 0) :
    runStream s ut uo env ext now fin k =
      (⟨step1 s.hist ut now ++
          [⟨"assistant", joinS ((allChunks uo env ext ut).take k), fin⟩],
        false⟩,
       (allChunks uo env ext ut).take k) := by
  unfold runStream
  rw [if_neg (by simp [hs])]
  have h1 : countUnset (step1 s.hist ut now) = 0 :=
    countUnset_step1 s.hist ut now hn hc
  have h2 : preHist s.hist ut now = step1 s.hist ut now ++ [placeholderTurn] :=
    step2_concat _ h1
  simp only [h2, List.length_append, List.length_singleton,
    Nat.add_sub_cancel, setLast]

theorem appendMsg_empty_user : ∀ (h : List Turn) (c now : String),
    pyStrip c = "" → append_message h "user" c none now = h := by
  intro h c now hc
  simp [append_message, hc]

theorem appendMsg_dedup : ∀ (h : List Turn) (role c : String)
    (ts? : Option String) (now : String) (last : Turn),
    h.getLast? = some last → last.role = role → last.content = pyStrip c →
    append_message h role c ts? now = h := by
  intro h role c ts? now last hl hr hco
  simp only [append_message]
  split
  · rfl
  · rw [hl]
    simp [hr, hco]

theorem appendMsg_appends : ∀ (h : List Turn) (role c : String)
    (ts? : Option String) (now : String),
    ¬(pyStrip c = "" ∧ role = "user") →
    (∀ last : Turn, h.getLast? = some last →
      ¬(last.role = role ∧ last.content = pyStrip c)) →
    append_message h role c ts? now = h ++ [⟨role, pyStrip c, ts?.getD now⟩] := by
  intro h role c ts? now h1 h2
  simp only [append_message]
  rw [if_neg h1]
  cases hm : h.getLast? with
  | none => rfl
  | some last =>
    dsimp only
    rw [if_neg (h2 last hm)]

theorem appendMsg_idem : ∀ (h : List Turn) (role c t1 t2 : String),
    append_message (append_message h role c none t1) role c none t2 =
      append_message h role c none t1 := by
  intro h role c t1 t2
  by_cases h1 : pyStrip c = "" ∧ role = "user"
  · have e1 : append_message h role c none t1 = h := by
      simp only [append_message]
      rw [if_pos h1]
    have e2 : append_message h role c none t2 = h := by
      simp only [append_message]
      rw [if_pos h1]
    rw [e1, e2]
  · by_cases h2 : ∃ last : Turn, h.getLast? = some last ∧
        last.role = role ∧ last.content = pyStrip c
    · obtain ⟨last, hl, hr, hco⟩ := h2
      rw [appendMsg_dedup h role c none t1 last hl hr hco,
        appendMsg_dedup h role c none t2 last hl hr hco]
    · have h2' : ∀ last : Turn, h.getLast? = some last →
          ¬(last.role = role ∧ last.content = pyStrip c) := by
        intro last hl hcond
        exact h2 ⟨last, hl, hcond.1, hcond.2⟩
      rw [appendMsg_appends h role c none t1 h1 h2']
      exact appendMsg_dedup _ role c none t2 _ (List.getLast?_concat _) rfl rfl

/-- C3: `append_message` first trims the content; it leaves the history
unchanged when the trimmed content is empty and the role is `user`, and
when the trimmed (role, content) pair equals the last turn's; in every
other case it appends exactly one turn carrying the role, the trimmed
content, and the supplied timestamp (defaulting to the current instant
`now`); consequently appending the same (role, content) twice in a row
leaves the history unchanged after the second call. -/
theorem append_message_spec :
    (∀ (h : List Turn) (c now : String),
      pyStrip c = "" → append_message h "user" c none now = h) ∧
    (∀ (h : List Turn) (role c : String) (ts? : Option String)
      (now : String) (last : Turn),
      h.getLast? = some last → last.role = role → last.content = pyStrip c →
      append_message h role c ts? now = h) ∧
    (∀ (h : List Turn) (role c : String) (ts? : Option String)
      (now : String),
      ¬(pyStrip c = "" ∧ role = "user") →
      (∀ last : Turn, h.getLast? = some last →
        ¬(last.role = role ∧ last.content = pyStrip c)) →
      append_message h role c ts? now =
        h ++ [⟨role, pyStrip c, ts?.getD now⟩]) ∧
    (∀ (h : List Turn) (role c t1 t2 : String),
      append_message (append_message h role c none t1) role c none t2 =
        append_message h role c none t1) :=
  ⟨appendMsg_empty_user, appendMsg_dedup, appendMsg_appends, appendMsg_idem⟩

/-- Concrete instances of C3: whitespace-only user input is dropped, a
repeat of the last turn is dropped, a fresh message is appended trimmed and
timestamped, and a double append equals a single one. -/
theorem append_message_spec_witness :
    append_message [] "user" "   " none "T1" = [] ∧
    append_message [⟨"user", "hi", "T0"⟩] "user" " hi " none "T1" =
      [⟨"user", "hi", "T0"⟩] ∧
    append_message [] "user" " hey " none "T1" = [⟨"user", "hey", "T1"⟩] ∧
    append_message (append_message [] "user" "hey" none "T1") "user" "hey"
      none "T2" = append_message [] "user" "hey" none "T1" := by
  refine ⟨append_message_spec.1 [] "   " "T1" (by decide),
    append_message_spec.2.1 [⟨"user", "hi", "T0"⟩] "user" " hi " none "T1"
      ⟨"user", "hi", "T0"⟩ (by decide) (by decide) (by decide),
    ?_,
    append_message_spec.2.2.2 [] "user" "hey" "T1" "T2"⟩
  have h3 := append_message_spec.2.2.1 [] "user" " hey " none "T1"
    (by decide) (by intro last hl; simp at hl)
  exact h3.trans (by decide)

/-- C5: `_mock_response` is a total function returning one fixed non-empty
string per keyword category, matched against the lowercased input in
priority order (greeting, then task, then dashboard, then help, then the
fallback); determinism is immediate because it is a pure function of its
argument.  The concrete equations exhibit each category and the priority
order; in particular `"hello"` yields the greeting. -/
theorem mock_response_spec :
    (∀ s : String, mock_response s ≠ "") ∧
    mock_response "hello" = "Hi there! How can I help you today?" ∧
    mock_response "new task" = "You can create a new task from the Tasks page." ∧
    mock_response "dashboard" =
      "The dashboard shows metrics and recent tasks. Which metric?" ∧
    mock_response "help" =
      "Ask me about creating, updating, or deleting tasks, or about user accounts." ∧
    mock_response "ok then" = "Thanks — I got that. Can you tell me more?" ∧
    mock_response "task dashboard help" =
      "You can create a new task from the Tasks page." ∧
    mock_response "dashboard help" =
      "The dashboard shows metrics and recent tasks. Which metric?" := by
  refine ⟨?_, by decide, by decide, by decide, by decide, by decide,
    by decide, by decide⟩
  intro s
  simp only [mock_response]
  split
  · decide
  · split
    · decide
    · split
      · decide
      · split
        · decide
        · decide

/-- C10: the keyword matching of `_mock_response` is substring-based: any
input whose lowercased text contains `"hi"` anywhere, also inside another
word, gets the greeting reply, which takes priority over every later
keyword category. -/
theorem greeting_substring_priority : ∀ s : String,
    containsSub (pyLower s) "hi" = true →
    mock_response s = "Hi there! How can I help you today?" := by
  intro s h
  simp only [mock_response, h, Bool.or_true, if_true]

/-- Concrete instance of C10: `"Which task?"` contains `"hi"` inside the
word `"which"` and also the keyword `"task"`, yet gets the greeting. -/
theorem greeting_substring_priority_witness :
    containsSub (pyLower "Which task?") "hi" = true ∧
    mock_response "Which task?" = "Hi there! How can I help you today?" :=
  ⟨by decide, greeting_substring_priority "Which task?" (by decide)⟩

theorem str_append_empty (s : String) : s ++ "" = s := by
  apply String.ext
  rw [String.data_append]
  exact List.append_nil s.data

theorem joinS_single (x : String) : joinS [x] = x := str_append_empty x

theorem joinS_localChunks (ut : String) :
    joinS (localChunks ut) = mock_response ut := by
  unfold localChunks
  rw [joinS_map_mk, chunks12_flatten]

/-- C1 counterexample: a submit that arrives while a response is in flight
(`_is_streaming` set, unfinalized placeholder at the end) leaves the entire
session state — history and flag — untouched and yields no chunks; no
component of the state records the text `"second question"`, so no pending
FIFO queue exists and the message can never be processed later (the state
is all a later step can read). -/
theorem busy_submit_drops_message_cex :
    runStream ⟨[⟨"user", "hello", "T0"⟩,
        ⟨"assistant", "Hi there! How can I help you today?", ""⟩], true⟩
      "second question" false ⟨none, true⟩ (.ok "") "T1" "T2" 99 =
      (⟨[⟨"user", "hello", "T0"⟩,
         ⟨"assistant", "Hi there! How can I help you today?", ""⟩], true⟩,
       []) ∧
    ∀ t ∈ (runStream ⟨[⟨"user", "hello", "T0"⟩,
        ⟨"assistant", "Hi there! How can I help you today?", ""⟩], true⟩
      "second question" false ⟨none, true⟩ (.ok "") "T1" "T2" 99).1.hist,
      t.content ≠ "second question" := by
  constructor
  · decide
  · decide

/-- C1 amended: `get_response_stream` called while `_is_streaming` is true
returns at once (chatbot_core.py lines 119-120): the generator yields
nothing and the session state is unchanged — the message is silently
dropped, not queued. -/
theorem busy_submit_is_noop : ∀ (s : Sess) (ut : String) (uo : Bool)
    (env : Env) (ext : Except String String) (now fin : String) (k : Nat),
    s.streaming = true → runStream s ut uo env ext now fin k = (s, []) := by
  intro s ut uo env ext now fin k hs
  simp [runStream, hs]

/-- Concrete instance of the amended C1. -/
theorem busy_submit_is_noop_witness :
    runStream ⟨[], true⟩ "hi" true ⟨some "k", true⟩ (.error "boom")
      "T1" "T2" 3 = (⟨[], true⟩, []) :=
  busy_submit_is_noop ⟨[], true⟩ "hi" true ⟨some "k", true⟩ (.error "boom")
    "T1" "T2" 3 rfl

/-- C2: for a submit that starts streaming from an idle session with a
fully finalized history, however the chunk sequence ends — fully drained or
abandoned after any number `k ≥ 1` of pulls, in either responder branch
including the error branch — the `finally:` block leaves `_is_streaming`
false and turns the placeholder, which was the unique unset-timestamp turn
of the pre-stream history, into a turn stamped with the non-empty instant
`fin`; every other turn is untouched, so exactly one previously-unset
timestamp becomes set. -/
theorem finalize_guarantee : ∀ (s : Sess) (ut : String) (uo : Bool)
    (env : Env) (ext : Except String String) (now fin : String) (k : Nat),
    s.streaming = false → now ≠ "" → fin ≠ "" →
    countUnset s.hist = 0 → 1 ≤ k →
    (runStream s ut uo env ext now fin k).1.streaming = false ∧
    countUnset (preHist s.hist ut now) = 1 ∧
    countUnset (runStream s ut uo env ext now fin k).1.hist = 0 ∧
    (runStream s ut uo env ext now fin k).1.hist.length =
      (preHist s.hist ut now).length ∧
    (runStream s ut uo env ext now fin k).1.hist.dropLast =
      (preHist s.hist ut now).dropLast ∧
    ((preHist s.hist ut now).getLast?).map Turn.ts = some "" ∧
    ((runStream s ut uo env ext now fin k).1.hist.getLast?).map Turn.ts =
      some fin := by
  intro s ut uo env ext now fin k hs hn hf hc hk
  have h1 : countUnset (step1 s.hist ut now) = 0 :=
    countUnset_step1 s.hist ut now hn hc
  have hpre : preHist s.hist ut now =
      step1 s.hist ut now ++ [placeholderTurn] := step2_concat _ h1
  rw [runStream_eq s ut uo env ext now fin k hs hn hc]
  dsimp only
  rw [hpre]
  refine ⟨rfl, ?_, ?_, ?_, ?_, ?_, ?_⟩
  · rw [countUnset_append, h1, countUnset_single]
    simp [placeholderTurn]
  · rw [countUnset_append, h1, countUnset_single]
    simp [hf]
  · simp
  · rw [List.dropLast_concat, List.dropLast_concat]
  · rw [List.getLast?_concat]
    rfl
  · rw [List.getLast?_concat]
    rfl

/-- Concrete instance of C2: the `"hello"` stream abandoned after 2 of its
3 chunks still ends finalized and idle. -/
theorem finalize_guarantee_witness :
    (runStream ⟨[], false⟩ "hello" false ⟨none, true⟩ (.ok "")
        "T1" "T2" 2).1.streaming = false ∧
    countUnset (preHist [] "hello" "T1") = 1 ∧
    countUnset (runStream ⟨[], false⟩ "hello" false ⟨none, true⟩ (.ok "")
        "T1" "T2" 2).1.hist = 0 ∧
    (runStream ⟨[], false⟩ "hello" false ⟨none, true⟩ (.ok "")
        "T1" "T2" 2).1.hist.length = (preHist [] "hello" "T1").length ∧
    (runStream ⟨[], false⟩ "hello" false ⟨none, true⟩ (.ok "")
        "T1" "T2" 2).1.hist.dropLast = (preHist [] "hello" "T1").dropLast ∧
    ((preHist [] "hello" "T1").getLast?).map Turn.ts = some "" ∧
    ((runStream ⟨[], false⟩ "hello" false ⟨none, true⟩ (.ok "")
        "T1" "T2" 2).1.hist.getLast?).map Turn.ts = some "T2" :=
  finalize_guarantee ⟨[], false⟩ "hello" false ⟨none, true⟩ (.ok "")
    "T1" "T2" 2 rfl (by decide) (by decide) (by decide) (by decide)

/-- C8: a responder failure never escapes `get_response_stream`: the
`except` arm of chatbot_core.py lines 143-146 converts the exception `e`
into the single terminal chunk `"(OpenAI error) " ++ e`, writes it into the
placeholder content, and the `finally:` block finalizes the placeholder and
clears the in-flight flag exactly as on normal completion; the chunk
sequence is the one-element list, hence finite and safe to drain fully.
(The local branch is a pure total function and cannot raise; `runStream`
itself is total, so no exception reaches the caller in any branch.) -/
theorem responder_error_contained : ∀ (s : Sess) (ut : String) (env : Env)
    (e : String) (now fin : String) (k : Nat),
    s.streaming = false → now ≠ "" → countUnset s.hist = 0 →
    extSelected true env = true → 1 ≤ k →
    (runStream s ut true env (.error e) now fin k).2 =
      ["(OpenAI error) " ++ e] ∧
    ((runStream s ut true env (.error e) now fin k).1.hist.getLast?).map
        Turn.content = some ("(OpenAI error) " ++ e) ∧
    ((runStream s ut true env (.error e) now fin k).1.hist.getLast?).map
        Turn.ts = some fin ∧
    (runStream s ut true env (.error e) now fin k).1.streaming = false := by
  intro s ut env e now fin k hs hn hc hsel hk
  rw [runStream_eq s ut true env (.error e) now fin k hs hn hc]
  have hcs : allChunks true env (.error e) ut = ["(OpenAI error) " ++ e] := by
    unfold allChunks
    rw [if_pos hsel]
    rfl
  have htake : (["(OpenAI error) " ++ e] : List String).take k =
      ["(OpenAI error) " ++ e] := by
    cases k with
    | zero => omega
    | succ k => simp
  dsimp only
  rw [hcs, htake]
  refine ⟨rfl, ?_, ?_, rfl⟩
  · rw [List.getLast?_concat]
    show some (joinS ["(OpenAI error) " ++ e]) = _
    rw [joinS_single]
  · rw [List.getLast?_concat]
    rfl

/-- Concrete instance of C8: a failing external call surfaces only as the
error chunk, finalized and idle afterwards. -/
theorem responder_error_contained_witness :
    (runStream ⟨[], false⟩ "q" true ⟨some "sk-1", true⟩ (.error "boom")
        "T1" "T2" 5).2 = ["(OpenAI error) " ++ "boom"] ∧
    ((runStream ⟨[], false⟩ "q" true ⟨some "sk-1", true⟩ (.error "boom")
        "T1" "T2" 5).1.hist.getLast?).map Turn.content =
      some ("(OpenAI error) " ++ "boom") ∧
    ((runStream ⟨[], false⟩ "q" true ⟨some "sk-1", true⟩ (.error "boom")
        "T1" "T2" 5).1.hist.getLast?).map Turn.ts = some "T2" ∧
    (runStream ⟨[], false⟩ "q" true ⟨some "sk-1", true⟩ (.error "boom")
        "T1" "T2" 5).1.streaming = false :=
  responder_error_contained ⟨[], false⟩ "q" ⟨some "sk-1", true⟩ "boom"
    "T1" "T2" 5 rfl (by decide) (by decide) (by decide) (by decide)

/-- C6: the external responder is invoked exactly when `use_openai` is true
AND the key is present (non-empty) AND `requests` imported; in every other
case — including `use_openai=true` with the key absent — the run is
literally identical to a local-variant run: the yielded chunks are the
local chunks and a full drain leaves the local deterministic reply in the
placeholder, with no error surfaced anywhere in the state. -/
theorem responder_selection :
    (∀ (uo : Bool) (env : Env), extSelected uo env = true ↔
      uo = true ∧ keyPresent env = true ∧ env.requestsAvailable = true) ∧
    (∀ (s : Sess) (ut : String) (uo : Bool) (env : Env)
      (ext : Except String String) (now fin : String) (k : Nat),
      extSelected uo env = false →
      runStream s ut uo env ext now fin k =
        runStream s ut false env ext now fin k) ∧
    (∀ (s : Sess) (ut : String) (uo : Bool) (env : Env)
      (ext : Except String String) (now fin : String) (k : Nat),
      s.streaming = false → extSelected uo env = false →
      (runStream s ut uo env ext now fin k).2 = (localChunks ut).take k) ∧
    (∀ (s : Sess) (ut : String) (uo : Bool) (env : Env)
      (ext : Except String String) (now fin : String) (k : Nat),
      s.streaming = false → now ≠ "" → countUnset s.hist = 0 →
      extSelected uo env = false → (localChunks ut).length ≤ k →
      ((runStream s ut uo env ext now fin k).1.hist.getLast?).map
        Turn.content = some (mock_response ut)) ∧
    (∀ avail : Bool, extSelected true ⟨none, avail⟩ = false) := by
  refine ⟨?_, ?_, ?_, ?_, ?_⟩
  · intro uo env
    unfold extSelected
    constructor
    · intro h
      have h1 := Bool.and_elim_left h
      have h2 := Bool.and_elim_right h
      exact ⟨Bool.and_elim_left h1, Bool.and_elim_right h1, h2⟩
    · intro ⟨h1, h2, h3⟩
      rw [h1, h2, h3]
      rfl
  · intro s ut uo env ext now fin k h
    have e1 : allChunks uo env ext ut = localChunks ut := by
      unfold allChunks
      rw [if_neg (by simp [h])]
    have e2 : allChunks false env ext ut = localChunks ut := by
      unfold allChunks
      rw [if_neg (by simp [extSelected])]
    simp only [runStream, e1, e2]
  · intro s ut uo env ext now fin k hs h
    have e1 : allChunks uo env ext ut = localChunks ut := by
      unfold allChunks
      rw [if_neg (by simp [h])]
    simp [runStream, hs, e1]
  · intro s ut uo env ext now fin k hs hn hc h hk
    rw [runStream_eq s ut uo env ext now fin k hs hn hc]
    have e1 : allChunks uo env ext ut = localChunks ut := by
      unfold allChunks
      rw [if_neg (by simp [h])]
    dsimp only
    rw [e1, List.take_of_length_le hk, List.getLast?_concat]
    show some (joinS (localChunks ut)) = _
    rw [joinS_localChunks]
  · intro avail
    simp [extSelected, keyPresent]

/-- Concrete instance of C6: `use_openai=true` with the key unset silently
produces exactly the local `"hello"` reply. -/
theorem responder_selection_witness :
    extSelected true ⟨none, true⟩ = false ∧
    runStream ⟨[], false⟩ "hello" true ⟨none, true⟩ (.error "no key")
        "T1" "T2" 9 =
      runStream ⟨[], false⟩ "hello" false ⟨none, true⟩ (.error "no key")
        "T1" "T2" 9 ∧
    (runStream ⟨[], false⟩ "hello" true ⟨none, true⟩ (.error "no key")
        "T1" "T2" 9).2 = (localChunks "hello").take 9 ∧
    ((runStream ⟨[], false⟩ "hello" true ⟨none, true⟩ (.error "no key")
        "T1" "T2" 9).1.hist.getLast?).map Turn.content =
      some (mock_response "hello") :=
  ⟨responder_selection.2.2.2.2 true,
   responder_selection.2.1 ⟨[], false⟩ "hello" true ⟨none, true⟩
     (.error "no key") "T1" "T2" 9 (by decide),
   responder_selection.2.2.1 ⟨[], false⟩ "hello" true ⟨none, true⟩
     (.error "no key") "T1" "T2" 9 rfl (by decide),
   responder_selection.2.2.2.1 ⟨[], false⟩ "hello" true ⟨none, true⟩
     (.error "no key") "T1" "T2" 9 rfl (by decide) (by decide) (by decide)
     (by decide)⟩

theorem getD_map_mk : ∀ (L : List (List Char)) (i : Nat), i < L.length →
    ((L.map (fun l => String.mk l)).getD i "") = String.mk (L.getD i []) := by
  intro L
  induction L with
  | nil =>
    intro i hi
    simp at hi
  | cons a r ih =>
    intro i hi
    cases i with
    | zero => rfl
    | succ i =>
      simp only [List.map_cons, List.getD_cons_succ]
      exact ih i (by simpa using hi)

/-- C4: the local streaming branch splits the full mock reply into chunks
of exactly 12 characters (the last possibly shorter but never empty); the
placeholder-content snapshots after each yielded chunk (the `buffer`
prefixes) grow under string-prefix order; and the concatenation of all
yielded chunks — which a full drain leaves as the final placeholder
content — equals the local responder's full reply. -/
theorem local_stream_chunks : ∀ ut : String,
    joinS (localChunks ut) = mock_response ut ∧
    (∀ c ∈ localChunks ut, c ≠ "" ∧ c.length ≤ 12) ∧
    (∀ i : Nat, i + 1 < (localChunks ut).length →
      ((localChunks ut).getD i "").length = 12) ∧
    (∀ i : Nat, ∃ u : String,
      joinS ((localChunks ut).take (i + 1)) =
        joinS ((localChunks ut).take i) ++ u) ∧
    (∀ (s : Sess) (env : Env) (ext : Except String String)
      (now fin : String) (k : Nat),
      s.streaming = false → now ≠ "" → countUnset s.hist = 0 →
      (localChunks ut).length ≤ k →
      (runStream s ut false env ext now fin k).2 = localChunks ut ∧
      ((runStream s ut false env ext now fin k).1.hist.getLast?).map
        Turn.content = some (mock_response ut)) := by
  intro ut
  refine ⟨joinS_localChunks ut, ?_, ?_, ?_, ?_⟩
  · intro c hc
    obtain ⟨l, hl, rfl⟩ := List.mem_map.mp hc
    obtain ⟨hne, hle⟩ := chunks12_sizes _ l hl
    constructor
    · intro he
      exact hne (congrArg String.data he)
    · exact hle
  · intro i hi
    unfold localChunks at hi ⊢
    rw [List.length_map] at hi
    rw [getD_map_mk _ i (by omega)]
    exact chunks12_full _ i hi
  · intro i
    rw [List.take_succ, joinS_append]
    exact ⟨joinS ((localChunks ut)[i]?.toList), rfl⟩
  · intro s env ext now fin k hs hn hc hk
    rw [runStream_eq s ut false env ext now fin k hs hn hc]
    have e1 : allChunks false env ext ut = localChunks ut := by
      unfold allChunks
      rw [if_neg (by simp [extSelected])]
    dsimp only
    rw [e1, List.take_of_length_le hk]
    refine ⟨rfl, ?_⟩
    rw [List.getLast?_concat]
    show some (joinS (localChunks ut)) = _
    rw [joinS_localChunks]

/-- Concrete instance of C4 on the `"hello"` reply (3 chunks: 12, 12, 11
characters). -/
theorem local_stream_chunks_witness :
    joinS (localChunks "hello") = mock_response "hello" ∧
    ((localChunks "hello").getD 0 "").length = 12 ∧
    (∃ u : String, joinS ((localChunks "hello").take 2) =
      joinS ((localChunks "hello").take 1) ++ u) ∧
    (runStream ⟨[], false⟩ "hello" false ⟨none, true⟩ (.ok "")
        "T1" "T2" 3).2 = localChunks "hello" :=
  ⟨(local_stream_chunks "hello").1,
   (local_stream_chunks "hello").2.2.1 0 (by decide),
   (local_stream_chunks "hello").2.2.2.1 1,
   ((local_stream_chunks "hello").2.2.2.2 ⟨[], false⟩ ⟨none, true⟩ (.ok "")
     "T1" "T2" 3 rfl (by decide) (by decide) (by decide)).1⟩

/-- C7: starting from a session whose history has no unset-timestamp turn
(the state every finalized run leaves behind), every history observable
during `get_response_stream` — on entry, after the user append, after the
placeholder append, at every chunk yield, and after finalization — contains
at most one turn with an unset timestamp, namely the active placeholder:
`append_message` always stamps a timestamp, and the placeholder step never
creates a second placeholder when the unset one is already last. -/
theorem single_placeholder_invariant : ∀ (s : Sess) (ut : String)
    (uo : Bool) (env : Env) (ext : Except String String)
    (now fin : String) (k : Nat),
    now ≠ "" → countUnset s.hist = 0 →
    ∀ h ∈ streamSnapshots s ut uo env ext now fin k, countUnset h ≤ 1 := by
  intro s ut uo env ext now fin k hn hc h hmem
  unfold streamSnapshots at hmem
  by_cases hs : s.streaming = true
  · rw [if_pos hs] at hmem
    simp only [List.mem_singleton] at hmem
    subst hmem
    simp [hc]
  · rw [if_neg hs] at hmem
    have h1 : countUnset (step1 s.hist ut now) = 0 :=
      countUnset_step1 s.hist ut now hn hc
    have hpre : preHist s.hist ut now =
        step1 s.hist ut now ++ [placeholderTurn] := step2_concat _ h1
    dsimp only at hmem
    simp only [List.mem_append, List.mem_cons, List.mem_singleton,
      List.mem_map, List.mem_range, List.not_mem_nil, or_false] at hmem
    rcases hmem with ((rfl | rfl | rfl) | ⟨i, hi, rfl⟩) | rfl
    · simp [hc]
    · simp [h1]
    · rw [hpre, countUnset_append, h1, countUnset_single]
      simp [placeholderTurn]
    · rw [hpre]
      simp only [List.length_append, List.length_singleton,
        Nat.add_sub_cancel]
      rw [setLast, countUnset_append, h1, countUnset_single]
      simp
    · rw [hpre]
      simp only [List.length_append, List.length_singleton,
        Nat.add_sub_cancel]
      rw [setLast, countUnset_append, h1, countUnset_single]
      split <;> simp

/-- Concrete instance of C7: the pre-stream history of a `"hello"` submit
(a sampled snapshot of that run) has exactly one unset-timestamp turn. -/
theorem single_placeholder_invariant_witness :
    countUnset (preHist [] "hello" "T1") ≤ 1 :=
  single_placeholder_invariant ⟨[], false⟩ "hello" false ⟨none, true⟩
    (.ok "") "T1" "T2" 2 (by decide) (by decide)
    (preHist [] "hello" "T1") (by decide)

theorem startsL_self_append : ∀ (p r : List Char),
    startsL p (p ++ r) = true := by
  intro p r
  induction p with
  | nil => rfl
  | cons a as ih =>
    show (a == a && startsL as (as ++ r)) = true
    rw [ih]
    simp

theorem pyDrop_marker (x : String) : pyDrop ("data: " ++ x) 6 = x := by
  apply String.ext
  show (("data: " ++ x).data).drop 6 = x.data
  rw [String.data_append]
  exact List.drop_left "data: ".data x.data

/-- C9: the external streamed mode (chatbot.py lines 151-187) consumes the
feed line by line: a line carrying one decodable event contributes exactly
its (non-empty) delta contents, in order, before the rest of the feed is
processed; a `"data: "` line is decoded by stripping the marker; the
`"[DONE]"` sentinel terminates the stream, discarding everything after it;
and an event decoding to a single choice with delta content `d ≠ ""`
yields exactly `[d]`, so a multi-delta reply arrives as multiple chunks. -/
theorem sse_stream_spec :
    (∀ (parse : String → Option (List (Option String))) (line : String)
      (rest : List String), line ≠ "" → sseLineData line ≠ "[DONE]" →
      sseDeltas parse (line :: rest) =
        eventDeltas parse (sseLineData line) ++ sseDeltas parse rest) ∧
    (∀ (parse : String → Option (List (Option String)))
      (pre post : List String),
      (∀ l ∈ pre, sseLineData l ≠ "[DONE]") →
      sseDeltas parse (pre ++ "data: [DONE]" :: post) = sseDeltas parse pre) ∧
    (∀ x : String, sseLineData ("data: " ++ x) = pyStrip x) ∧
    (∀ (parse : String → Option (List (Option String))) (data d : String),
      parse data = some [some d] → d ≠ "" →
      eventDeltas parse data = [d]) := by
  refine ⟨?_, ?_, ?_, ?_⟩
  · intro parse line rest hline hdone
    show (if line = "" then sseDeltas parse rest
      else if sseLineData line = "[DONE]" then []
      else eventDeltas parse (sseLineData line) ++ sseDeltas parse rest) = _
    rw [if_neg hline, if_neg hdone]
  · intro parse pre post hpre
    induction pre with
    | nil =>
      show (if ("data: [DONE]" : String) = "" then sseDeltas parse post
        else if sseLineData "data: [DONE]" = "[DONE]" then []
        else eventDeltas parse (sseLineData "data: [DONE]") ++
          sseDeltas parse post) = []
      rw [if_neg (by decide), if_pos (by decide)]
    | cons l pre ih =>
      have hl : sseLineData l ≠ "[DONE]" := hpre l (by simp)
      have hrest : ∀ x ∈ pre, sseLineData x ≠ "[DONE]" := by
        intro x hx
        exact hpre x (by simp [hx])
      by_cases hl0 : l = ""
      · show (if l = "" then sseDeltas parse (pre ++ "data: [DONE]" :: post)
          else _) = (if l = "" then sseDeltas parse pre else _)
        rw [if_pos hl0, if_pos hl0, ih hrest]
      · show (if l = "" then _
          else if sseLineData l = "[DONE]" then []
          else eventDeltas parse (sseLineData l) ++
            sseDeltas parse (pre ++ "data: [DONE]" :: post)) =
          (if l = "" then _
          else if sseLineData l = "[DONE]" then []
          else eventDeltas parse (sseLineData l) ++ sseDeltas parse pre)
        rw [if_neg hl0, if_neg hl0, if_neg hl, if_neg hl, ih hrest]
  · intro x
    unfold sseLineData
    rw [if_pos (by exact startsL_self_append "data: ".data x.data),
      pyDrop_marker]
  · intro parse data d hp hd
    unfold eventDeltas
    rw [hp]
    simp [List.filterMap, hd]

/-- Concrete instance of C9: a two-event feed yields its two deltas in
order and stops at the sentinel. -/
theorem sse_stream_spec_witness :
    sseDeltas parseW ["data: e1", "data: e2"] =
      eventDeltas parseW (sseLineData "data: e1") ++
        sseDeltas parseW ["data: e2"] ∧
    sseDeltas parseW (["data: e1", "data: e2"] ++
        "data: [DONE]" :: ["data: e1"]) =
      sseDeltas parseW ["data: e1", "data: e2"] ∧
    sseLineData ("data: " ++ "e9") = pyStrip "e9" ∧
    eventDeltas parseW "e1" = ["Hel"] :=
  ⟨sse_stream_spec.1 parseW "data: e1" ["data: e2"] (by decide) (by decide),
   sse_stream_spec.2.1 parseW ["data: e1", "data: e2"] ["data: e1"]
     (by decide),
   sse_stream_spec.2.2.1 "e9",
   sse_stream_spec.2.2.2 parseW "e1" "Hel" (by decide) (by decide)⟩

/-- Concrete instance of C5: even a keyword-free input gets a non-empty
reply. -/
theorem mock_response_spec_witness : mock_response "xyzzy" ≠ "" :=
  mock_response_spec.1 "xyzzy"
